import Mathlib

/-!
Verification of the `remotehttp` package (an SSRF guard around Go's
`http.Transport`).

The development shallowly embeds `remotehttp.go`:

* Go `net.IP` values are byte lists (`List Nat`, one entry per byte);
* Go strings are modelled as `List Char` for computed strings, while the
  compiled-in CIDR literals are kept as Lean `String` constants whose
  `.data` is parsed;
* the external collaborators (`net.SplitHostPort`, `net.LookupIP`, and the
  base dialer `net.Dialer.DialContext`) are oracle functions collected in a
  `NetEnv`; the `context.Context` argument is absorbed into the oracle;
* `_checker` additionally returns the ghost trace of every
  `(network, target)` pair it hands to the base dialer, so that theorems can
  speak about which connection attempts were made.
-/

/-! ### Decimal and hexadecimal rendering (Go's uitoa / appendHex) -/

/-- Decimal digit character, as produced by Go's integer formatting.
Only ever applied to values below 10. -/
def decDigit : Nat → Char
  | 0 => '0'
  | 1 => '1'
  | 2 => '2'
  | 3 => '3'
  | 4 => '4'
  | 5 => '5'
  | 6 => '6'
  | 7 => '7'
  | 8 => '8'
  | _ => '9'

/-- Hexadecimal digit character (lowercase), as in Go's `hexDigit` table.
Only ever applied to values below 16. -/
def hexDigit : Nat → Char
  | 0 => '0'
  | 1 => '1'
  | 2 => '2'
  | 3 => '3'
  | 4 => '4'
  | 5 => '5'
  | 6 => '6'
  | 7 => '7'
  | 8 => '8'
  | 9 => '9'
  | 10 => 'a'
  | 11 => 'b'
  | 12 => 'c'
  | 13 => 'd'
  | 14 => 'e'
  | _ => 'f'

/-- Fuelled decimal rendering of a natural number (most significant digit
first), mirroring Go's `uitoa`. -/
def natDecAux : Nat → Nat → List Char
  | 0, _ => []
  | fuel + 1, n =>
    if n < 10 then [decDigit n]
    else natDecAux fuel (n / 10) ++ [decDigit (n % 10)]

/-- Decimal rendering of a natural number. -/
def natDec (n : Nat) : List Char := natDecAux (n + 1) n

/-- Fuelled hexadecimal rendering (most significant digit first). -/
def natHexAux : Nat → Nat → List Char
  | 0, _ => []
  | fuel + 1, n =>
    if n < 16 then [hexDigit n]
    else natHexAux fuel (n / 16) ++ [hexDigit (n % 16)]

/-- Hexadecimal rendering of a natural number, as Go's `appendHex` prints a
16-bit group: lowercase, no leading zeros. -/
def natHex (n : Nat) : List Char := natHexAux (n + 1) n

example : natDec 254 = ['2', '5', '4'] := by decide
example : natHex 65128 = ['f', 'e', '6', '8'] := by decide
example : "ab".data = ['a', 'b'] := by decide

/-! ### The `net.IP` model: byte lists, To4 / To16, String rendering -/

/-- Prefix marking an IPv4-mapped IPv6 address (Go's `v4InV6Prefix`):
ten zero bytes followed by `0xff, 0xff`. -/
def v4InV6Prefix : List Nat := [0, 0, 0, 0, 0, 0, 0, 0, 0, 0, 255, 255]

/-- Go `net.IP.To4`: a 4-byte address is returned as is; a 16-byte
IPv4-mapped address is shortened to its last four bytes; anything else
yields `none` (Go: nil). -/
def to4 (ip : List Nat) : Option (List Nat) :=
  if ip.length = 4 then some ip
  else if ip.length = 16 ∧ ip.take 12 = v4InV6Prefix then some (ip.drop 12)
  else none

/-- Go `net.IP.To16`: a 4-byte address is widened with the v4-in-v6 prefix,
a 16-byte address is returned as is, anything else yields `none`. -/
def to16 (ip : List Nat) : Option (List Nat) :=
  if ip.length = 4 then some (v4InV6Prefix ++ ip)
  else if ip.length = 16 then some ip
  else none

/-- The eight 16-bit groups of a 16-byte address (big-endian pairs). -/
def groups16 : List Nat → List Nat
  | b0 :: b1 :: rest => (b0 * 256 + b1) :: groups16 rest
  | _ => []

/-- Length of the run of zero groups starting at the head. -/
def zeroRunLen : List Nat → Nat
  | 0 :: rest => 1 + zeroRunLen rest
  | _ => 0

/-- The longest run of zero 16-bit groups, leftmost on ties, discarded when
shorter than two groups — exactly the `e0`/`e1` computation of Go's
`net.IP.String` (which works in bytes; two bytes are one group).
Returns `(start, length)` in group units. -/
def bestRun (gs : List Nat) : Option (Nat × Nat) :=
  (List.range gs.length).foldl
    (fun acc i =>
      let l := zeroRunLen (gs.drop i)
      match acc with
      | none => if 2 ≤ l then some (i, l) else none
      | some (bi, bl) => if bl < l then some (i, l) else some (bi, bl))
    none

/-- Join chunks with `':'` separators. -/
def joinColon : List (List Char) → List Char
  | [] => []
  | [x] => x
  | x :: rest => x ++ ':' :: joinColon rest

/-- Join chunks with `'.'` separators. -/
def joinDot : List (List Char) → List Char
  | [] => []
  | [x] => x
  | x :: rest => x ++ '.' :: joinDot rest

/-- RFC 5952 style text of a 16-byte IPv6 address, following Go's
`net.IP.String` loop: groups in lowercase hex, the best zero run elided
with a double colon. -/
def v6Chars (gs : List Nat) : List Char :=
  match bestRun gs with
  | none => joinColon (gs.map natHex)
  | some (s, l) =>
      joinColon ((gs.take s).map natHex) ++
        ':' :: ':' :: joinColon ((gs.drop (s + l)).map natHex)

/-- Hex dump of the raw bytes, Go's fallback for byte slices that are not
4 or 16 bytes long. -/
def ipHexChars (ip : List Nat) : List Char := (ip.map natHex).flatten

/-- Go `net.IP.String`: `"<nil>"` for an empty slice, `"?"` plus hex for an
invalid length, dotted decimal whenever `To4` succeeds (so also for
IPv4-mapped 16-byte addresses), and the RFC 5952 form otherwise. -/
def ipStringChars (ip : List Nat) : List Char :=
  if ip.length = 0 then "<nil>".data
  else if ip.length ≠ 4 ∧ ip.length ≠ 16 then '?' :: ipHexChars ip
  else
    match to4 ip with
    | some p4 => joinDot (p4.map natDec)
    | none => v6Chars (groups16 ip)

example : ipStringChars [127, 0, 0, 1] = "127.0.0.1".data := by decide
example :
    ipStringChars [254, 128, 0, 0, 0, 0, 0, 0, 0, 0, 0, 0, 0, 0, 0, 1] =
      "fe80::1".data := by decide
example :
    ipStringChars [0, 0, 0, 0, 0, 0, 0, 0, 0, 0, 0, 0, 0, 0, 0, 1] =
      "::1".data := by decide
example :
    ipStringChars ([0, 0, 0, 0, 0, 0, 0, 0, 0, 0, 255, 255] ++ [8, 8, 8, 8]) =
      "8.8.8.8".data := by decide
example :
    ipStringChars [32, 1, 13, 184, 0, 0, 0, 0, 0, 0, 0, 0, 0, 0, 0, 0] =
      "2001:db8::".data := by decide

/-! ### CIDR parsing (`net.ParseCIDR`) and range membership -/

/-- Split a character list on a separator character (like
`strings.Split`): always at least one chunk. -/
def splitOnChar (c : Char) : List Char → List (List Char)
  | [] => [[]]
  | x :: xs =>
    match splitOnChar c xs with
    | y :: ys => if x = c then [] :: y :: ys else (x :: y) :: ys
    | [] => [[x]]

/-- Find the first occurrence of a double colon, returning the text before
and after it. -/
def findDoubleColon : List Char → Option (List Char × List Char)
  | ':' :: ':' :: rest => some ([], rest)
  | c :: rest => (findDoubleColon rest).map (fun p => (c :: p.1, p.2))
  | [] => none

/-- Value of a hexadecimal digit character, `none` for anything else. -/
def hexVal (c : Char) : Option Nat :=
  if c.isDigit then some (c.toNat - 48)
  else if 'a' ≤ c ∧ c ≤ 'f' then some (c.toNat - 87)
  else if 'A' ≤ c ∧ c ≤ 'F' then some (c.toNat - 55)
  else none

/-- Value of a decimal digit string (validity is checked by the callers). -/
def decValue (s : List Char) : Nat :=
  s.foldl (fun acc c => acc * 10 + (c.toNat - 48)) 0

/-- One dotted-decimal IPv4 field: 1–3 digits, no leading zero, at most
255 (the stricter Go 1.17+ rule; no compiled-in literal has leading
zeros anyway). -/
def parseV4Field (s : List Char) : Option Nat :=
  if s = [] then none
  else if 3 < s.length then none
  else if ¬ s.all Char.isDigit then none
  else if 1 < s.length ∧ s.head? = some '0' then none
  else if 255 < decValue s then none
  else some (decValue s)

/-- Go's textual IPv4 parser: exactly four dotted fields, producing a
4-byte address. -/
def parseIPv4chars (s : List Char) : Option (List Nat) :=
  match (splitOnChar '.' s).mapM parseV4Field with
  | some fields => if fields.length = 4 then some fields else none
  | none => none

/-- One 16-bit IPv6 group: one to four hex digits. -/
def parseGroup (s : List Char) : Option Nat :=
  if s = [] ∨ 4 < s.length then none
  else (s.mapM hexVal).map (fun ds => ds.foldl (fun acc d => acc * 16 + d) 0)

/-- Colon-separated groups; the empty text stands for no groups at all
(used for the two sides of a double colon). -/
def parseGroups (s : List Char) : Option (List Nat) :=
  if s = [] then some [] else (splitOnChar ':' s).mapM parseGroup

/-- Big-endian bytes of a group list. -/
def bytesOfGroups (gs : List Nat) : List Nat :=
  (gs.map (fun g => [g / 256, g % 256])).flatten

/-- Go's textual IPv6 parser, restricted to the forms the compiled-in
literals use: hex groups separated by colons with at most one `::`
(which must stand for at least one zero group).  Zone suffixes and
embedded dotted-IPv4 tails are not modelled — no compiled-in literal
uses them. -/
def parseIPv6chars (s : List Char) : Option (List Nat) :=
  match findDoubleColon s with
  | none =>
    match parseGroups s with
    | some gs => if gs.length = 8 then some (bytesOfGroups gs) else none
    | none => none
  | some (l, r) =>
    if (findDoubleColon r).isSome then none
    else
      match parseGroups l, parseGroups r with
      | some gl, some gr =>
        if gl.length + gr.length ≤ 7 then
          some (bytesOfGroups
            (gl ++ List.replicate (8 - gl.length - gr.length) 0 ++ gr))
        else none
      | _, _ => none

/-- Go `net.CIDRMask`: a byte mask of `bits / 8` bytes with the first
`ones` bits set. -/
def cidrMask (ones bits : Nat) : List Nat :=
  (List.range (bits / 8)).map (fun i =>
    if 8 * (i + 1) ≤ ones then 255
    else if ones ≤ 8 * i then 0
    else 255 - 255 / 2 ^ (ones - 8 * i))

/-- A parsed CIDR block (`net.IPNet`): masked network bytes plus mask
bytes of the same length. -/
structure IPNet where
  network : List Nat
  mask : List Nat
deriving DecidableEq

/-- Bytewise AND of an address with a mask (Go `net.IP.Mask`; the lengths
always agree where this is used). -/
def maskBytes (ip mask : List Nat) : List Nat :=
  ip.zipWith Nat.land mask

/-- Split at the first `'/'`. -/
def splitSlash : List Char → Option (List Char × List Char)
  | '/' :: rest => some ([], rest)
  | c :: rest => (splitSlash rest).map (fun p => (c :: p.1, p.2))
  | [] => none

deriving instance DecidableEq for Except

/-- The error text `net.ParseCIDR` produces for a malformed literal. -/
def cidrErrMsg (s : String) : List Char :=
  "invalid CIDR address: ".data ++ s.data

/-- Go `net.ParseCIDR`, yielding the `*net.IPNet` block: parse the address
part (IPv4 first, then IPv6), then a decimal prefix length bounded by the
address width, and mask the network. -/
def parseCIDR (s : String) : Except (List Char) IPNet :=
  match splitSlash s.data with
  | none => Except.error (cidrErrMsg s)
  | some (a, m) =>
    let p :=
      match parseIPv4chars a with
      | some ip => some (ip, 32)
      | none =>
        match parseIPv6chars a with
        | some ip => some (ip, 128)
        | none => none
    match p with
    | none => Except.error (cidrErrMsg s)
    | some (ip, bits) =>
      if m ≠ [] ∧ m.all Char.isDigit ∧ decValue m ≤ bits then
        let mask := cidrMask (decValue m) bits
        Except.ok ⟨maskBytes ip mask, mask⟩
      else Except.error (cidrErrMsg s)

/-- Go `(*net.IPNet).Contains`: normalize the address with `To4`, require
matching widths, then compare under the mask.  (The network side is
already in normalized, masked form here because every `IPNet` in this
development is built by `parseCIDR`.) -/
def ipnetContains (n : IPNet) (ip : List Nat) : Bool :=
  let x := (to4 ip).getD ip
  x.length = n.network.length &&
    (List.range x.length).all (fun i =>
      Nat.land (x.getD i 0) (n.mask.getD i 0) =
        Nat.land (n.network.getD i 0) (n.mask.getD i 0))

example : parseCIDR ("127.0.0.0/8") = Except.ok ⟨[127, 0, 0, 0], [255, 0, 0, 0]⟩ := by decide
example :
    parseCIDR ("::1/128") =
      Except.ok ⟨[0, 0, 0, 0, 0, 0, 0, 0, 0, 0, 0, 0, 0, 0, 0, 1],
        List.replicate 16 255⟩ := by decide
example :
    parseCIDR ("fe80::/10") =
      Except.ok ⟨254 :: 128 :: List.replicate 14 0, 255 :: 192 :: List.replicate 14 0⟩ := by
  decide
example : (parseCIDR ("2001::/23")).isOk = true := by decide
example :
    ipnetContains ⟨[127, 0, 0, 0], [255, 0, 0, 0]⟩ [127, 0, 0, 1] = true := by decide
example :
    ipnetContains ⟨[127, 0, 0, 0], [255, 0, 0, 0]⟩ [128, 0, 0, 1] = false := by decide

/-! ### The compiled-in deny lists and `_isLocalIP` -/

/-- The IPv4 CIDR literals of `_isLocalIP` (`localIP4` in the source). -/
def localIP4 : List String :=
  ["10.0.0.0/8",
   "100.64.0.0/10",
   "127.0.0.0/8",
   "169.254.0.0/16",
   "172.16.0.0/12",
   "192.0.0.0/24",
   "192.0.2.0/24",
   "192.168.0.0/16",
   "192.18.0.0/15",
   "192.88.99.0/24",
   "198.51.100.0/24",
   "203.0.113.0/24",
   "224.0.0.0/4",
   "255.255.255.255/32"]

/-- The IPv6 CIDR literals of `_isLocalIP` (`localIP6` in the source). -/
def localIP6 : List String :=
  ["::/128",
   "100::/64",
   "2001:2::/48",
   "2001::/23",
   "2001::/32",
   "2001:db8::/32",
   "::1/128",
   "fc00::/7",
   "fe80::/10",
   "ff00::/8"]

/-- The cache-building loop of `_isLocalIP`: parse every literal of
`localIP4 ++ localIP6`, aborting with the parse error if one fails, and
partition the blocks by whether the literal contains a colon
(`strings.Contains(entry, ":")`).  The Go maps are keyed by the literal
strings, which are pairwise distinct, and are only ever iterated over, so
they are modelled as the lists of their values; the unspecified map
iteration order cannot be observed because the denial result does not
depend on which containing block is found first. -/
def buildRangesAux : List String → List IPNet → List IPNet →
    Except (List Char) (List IPNet × List IPNet)
  | [], r4, r6 => Except.ok (r4, r6)
  | e :: rest, r4, r6 =>
    match parseCIDR e with
    | Except.error err => Except.error err
    | Except.ok block =>
      if ':' ∈ e.data then buildRangesAux rest r4 (r6 ++ [block])
      else buildRangesAux rest (r4 ++ [block]) r6

/-- The one-time construction of `ip4Ranges` / `ip6Ranges`.  The Go code
builds these package-level maps lazily on the first call; since the build
is deterministic and (as proved below) never fails, the cached maps equal
this pure computation on every call. -/
def buildRanges : Except (List Char) (List IPNet × List IPNet) :=
  buildRangesAux (localIP4 ++ localIP6) [] []

/-- The cached IPv4 blocks (`ip4Ranges` in the source). -/
def ip4Ranges : List IPNet :=
  match buildRanges with
  | Except.ok p => p.1
  | Except.error _ => []

/-- The cached IPv6 blocks (`ip6Ranges` in the source). -/
def ip6Ranges : List IPNet :=
  match buildRanges with
  | Except.ok p => p.2
  | Except.error _ => []

/-- The two ways `_isLocalIP` can return a non-nil error: a CIDR parse
error bubbled up from the cache build, or the denial of a local address. -/
inductive LocalErr where
  | parseError (msg : List Char)
  | denied (ip : List Nat)
deriving DecidableEq

/-- The text of a denial error:
`fmt.Errorf("ip address %s is denied as local", IP)`. -/
def deniedMsg (ip : List Nat) : List Char :=
  "ip address ".data ++ ipStringChars ip ++ " is denied as local".data

/-- The `Error()` string of a `LocalErr`. -/
def localErrMsg : LocalErr → List Char
  | LocalErr.parseError m => m
  | LocalErr.denied ip => deniedMsg ip

/-- `_isLocalIP`: build (or reuse) the range table, pick the map for the
address family by whether `IP.String()` contains a colon, and deny when
any block of that map contains the address.  `none` models the nil error
(the address is not local). -/
def _isLocalIP (ip : List Nat) : Option LocalErr :=
  match buildRanges with
  | Except.error e => some (LocalErr.parseError e)
  | Except.ok ranges =>
    let testMap := if ':' ∈ ipStringChars ip then ranges.2 else ranges.1
    if testMap.any (fun block => ipnetContains block ip) then
      some (LocalErr.denied ip)
    else none

example : _isLocalIP [127, 0, 0, 1] = some (LocalErr.denied [127, 0, 0, 1]) := by decide
example : _isLocalIP [10, 1, 2, 3] = some (LocalErr.denied [10, 1, 2, 3]) := by decide
example : _isLocalIP [169, 254, 169, 254] = some (LocalErr.denied [169, 254, 169, 254]) := by
  decide
example : _isLocalIP [8, 8, 8, 8] = none := by decide
example : _isLocalIP [93, 184, 216, 34] = none := by decide
example :
    _isLocalIP [0, 0, 0, 0, 0, 0, 0, 0, 0, 0, 0, 0, 0, 0, 0, 1] =
      some (LocalErr.denied [0, 0, 0, 0, 0, 0, 0, 0, 0, 0, 0, 0, 0, 0, 0, 1]) := by decide
example :
    _isLocalIP [254, 128, 0, 0, 0, 0, 0, 0, 0, 0, 0, 0, 0, 0, 0, 1] =
      some (LocalErr.denied [254, 128, 0, 0, 0, 0, 0, 0, 0, 0, 0, 0, 0, 0, 0, 1]) := by decide
example : ip4Ranges.length = 14 := by decide
example : ip6Ranges.length = 10 := by decide

/-! ### The `_checker` dial loop and the `Transport` factory -/

/-- An established connection, remembered together with the network and the
address string the base dialer was asked to open it to. -/
structure Conn where
  network : List Char
  address : List Char
deriving DecidableEq

/-- One invocation of the base dial primitive: the `(network, target)`
pair handed to `dialler.DialContext`. -/
structure DialAttempt where
  network : List Char
  target : List Char
deriving DecidableEq

/-- The external collaborators of `_checker`: `net.SplitHostPort`,
`net.LookupIP`, and the base dialer `dialler.DialContext` (the
`context.Context` argument is absorbed into the oracle).  All three are
modelled as pure oracles; an `Except.error` carries the collaborator's
error text. -/
structure NetEnv where
  split : List Char → Except (List Char) (List Char × List Char)
  lookupIP : List Char → Except (List Char) (List (List Nat))
  dialContext : List Char → List Char → Except (List Char) Conn

/-- The distinguishable error outcomes of `_checker`.  In Go all of these
are plain `error` values; the constructors record which `return nil, err`
site produced them. -/
inductive CheckErr where
  | splitErr (msg : List Char)
  | resolveErr (msg : List Char)
  | localErr (e : LocalErr)
  | noHost (addr : List Char)
  | connectFailed (addr : List Char)
deriving DecidableEq

/-- The `Error()` text of each `_checker` failure. -/
def checkErrMsg : CheckErr → List Char
  | CheckErr.splitErr m => m
  | CheckErr.resolveErr m => m
  | CheckErr.localErr e => localErrMsg e
  | CheckErr.noHost addr => "failed to resolve host from ".data ++ addr
  | CheckErr.connectFailed addr => "failed to connect to ".data ++ addr

/-- Whether an `Except` is a success. -/
def exceptOk : Except ε α → Bool
  | Except.ok _ => true
  | Except.error _ => false

/-- The pinned dial target `_checker` builds for a candidate:
`fmt.Sprintf("%s:%s", ip, port)` when `To4` succeeds, and
`fmt.Sprintf("[%s]:%s", ip, port)` for the plain IPv6 case. -/
def fmtTarget (ip : List Nat) (port : List Char) : List Char :=
  if (to4 ip).isSome then ipStringChars ip ++ ':' :: port
  else '[' :: (ipStringChars ip ++ ']' :: ':' :: port)

/-- The per-candidate loop of `_checker`.  For each resolved address in
order: classify it with `_isLocalIP`, aborting on a non-nil error; rewrite
`target` to the pinned literal (the two `if` statements over `To4`/`To16`);
dial; return the connection on success, otherwise continue with the next
candidate.  The first component is the ghost trace of base-dialer
invocations; the second is `some` when the loop body returned. -/
def checkerLoop (env : NetEnv) (nw port : List Char) :
    List Char → List (List Nat) → List DialAttempt × Option (Except CheckErr Conn)
  | _, [] => ([], none)
  | target, ip :: rest =>
    match _isLocalIP ip with
    | some e => ([], some (Except.error (CheckErr.localErr e)))
    | none =>
      let t1 := if (to4 ip).isSome then ipStringChars ip ++ ':' :: port else target
      let t2 :=
        if (to16 ip).isSome && (to4 ip).isNone then
          '[' :: (ipStringChars ip ++ ']' :: ':' :: port)
        else t1
      match env.dialContext nw t2 with
      | Except.ok con => ([⟨nw, t2⟩], some (Except.ok con))
      | Except.error _ =>
        let p := checkerLoop env nw port t2 rest
        (⟨nw, t2⟩ :: p.1, p.2)

/-- `_checker`: split the address, resolve the host, run the candidate
loop, and fall through to the `failed to resolve host from` /
`failed to connect to` errors when the loop did not return. -/
def checker (env : NetEnv) (nw addr : List Char) :
    List DialAttempt × Except CheckErr Conn :=
  match env.split addr with
  | Except.error e => ([], Except.error (CheckErr.splitErr e))
  | Except.ok (host, port) =>
    match env.lookupIP host with
    | Except.error e => ([], Except.error (CheckErr.resolveErr e))
    | Except.ok ips =>
      match checkerLoop env nw port [] ips with
      | (tr, some r) => (tr, r)
      | (tr, none) =>
        if ips.length < 1 then (tr, Except.error (CheckErr.noHost addr))
        else (tr, Except.error (CheckErr.connectFailed addr))

/-- The `http.Transport` fields the factory sets that matter here: the
legacy `Dial` hook, the `DialContext` hook, and the two timeouts
(in nanoseconds). -/
structure HTTPTransport where
  dial : List Char → List Char → Except (List Char) Conn
  dialContext : List Char → List Char → List DialAttempt × Except CheckErr Conn
  tlsHandshakeTimeout : Nat
  responseHeaderTimeout : Nat

/-- The `Transport()` factory: the legacy `Dial` field is the raw
`dialler.Dial` (which is `DialContext` with a background context — the
oracle itself, no classification), while `DialContext` goes through
`_checker`.  The dialler's 30-second timeout and keep-alive are part of
the `env.dialContext` oracle's behaviour. -/
def Transport (env : NetEnv) : HTTPTransport :=
  { dial := env.dialContext
    dialContext := fun nw addr => checker env nw addr
    tlsHandshakeTimeout := 5 * 1000000000
    responseHeaderTimeout := 5 * 1000000000 }

/-! ### Character-level lemmas: the colon test of `_isLocalIP` -/

theorem decDigit_ne_colon (n : Nat) : decDigit n ≠ ':' := by
  unfold decDigit
  split <;> decide

theorem hexDigit_ne_colon (n : Nat) : hexDigit n ≠ ':' := by
  unfold hexDigit
  split <;> decide

theorem colon_not_mem_natDecAux (fuel : Nat) :
    ∀ n, ':' ∉ natDecAux fuel n := by
  induction fuel with
  | zero => intro n; simp [natDecAux]
  | succ f ih =>
    intro n
    simp only [natDecAux]
    split
    · simp only [List.mem_singleton]
      exact fun h => decDigit_ne_colon n h.symm
    · simp only [List.mem_append, List.mem_singleton]
      rintro (h | h)
      · exact ih _ h
      · exact decDigit_ne_colon _ h.symm

theorem colon_not_mem_natDec (n : Nat) : ':' ∉ natDec n :=
  colon_not_mem_natDecAux (n + 1) n

theorem colon_not_mem_natHexAux (fuel : Nat) :
    ∀ n, ':' ∉ natHexAux fuel n := by
  induction fuel with
  | zero => intro n; simp [natHexAux]
  | succ f ih =>
    intro n
    simp only [natHexAux]
    split
    · simp only [List.mem_singleton]
      exact fun h => hexDigit_ne_colon n h.symm
    · simp only [List.mem_append, List.mem_singleton]
      rintro (h | h)
      · exact ih _ h
      · exact hexDigit_ne_colon _ h.symm

theorem colon_not_mem_joinDot (ls : List (List Char))
    (h : ∀ l ∈ ls, ':' ∉ l) : ':' ∉ joinDot ls := by
  induction ls with
  | nil => simp [joinDot]
  | cons x rest ih =>
    cases rest with
    | nil => simpa [joinDot] using h x (by simp)
    | cons y ys =>
      simp only [joinDot, List.mem_append, List.mem_cons]
      rintro (hx | hc | hm)
      · exact h x (by simp) hx
      · exact absurd hc (by decide)
      · exact ih (fun l hl => h l (List.mem_cons_of_mem _ hl)) hm

theorem colon_mem_joinColon (x y : List Char) (ls : List (List Char)) :
    ':' ∈ joinColon (x :: y :: ls) := by
  simp [joinColon]

theorem groups16_length : ∀ l : List Nat, (groups16 l).length = l.length / 2
  | [] => rfl
  | [_] => by simp [groups16]
  | _ :: _ :: rest => by
    simp only [groups16, List.length_cons, groups16_length rest]
    omega

theorem colon_mem_v6Chars (gs : List Nat) (h : gs.length = 8) :
    ':' ∈ v6Chars gs := by
  simp only [v6Chars]
  cases hb : bestRun gs with
  | none =>
    rcases gs with _ | ⟨a, _ | ⟨b, rest⟩⟩
    · simp at h
    · simp at h
    · simpa using colon_mem_joinColon (natHex a) (natHex b) (rest.map natHex)
  | some p =>
    obtain ⟨s, l⟩ := p
    simp [List.mem_append]

/-! ### `To4` facts and the family split of `_isLocalIP` -/

theorem to4_of_length4 {ip : List Nat} (h : ip.length = 4) : to4 ip = some ip := by
  simp [to4, h]

theorem to4_some_length {ip p : List Nat} (h : to4 ip = some p) : p.length = 4 := by
  unfold to4 at h
  split at h
  next h4 =>
    injection h with h
    subst h
    exact h4
  next =>
    split at h
    next h16 =>
      injection h with h
      subst h
      simp [h16.1]
    next => exact absurd h (by simp)

theorem to4_none_length16 {ip : List Nat}
    (hwf : ip.length = 4 ∨ ip.length = 16) (h : to4 ip = none) :
    ip.length = 16 := by
  rcases hwf with h4 | h16
  · rw [to4_of_length4 h4] at h
    exact absurd h (by simp)
  · exact h16

/-- For a well-formed address the colon test of `_isLocalIP` is exactly
the `To4` family test: `IP.String()` contains a colon precisely when the
address is not (a form of) an IPv4 address. -/
theorem colon_mem_ipString_iff (ip : List Nat)
    (hwf : ip.length = 4 ∨ ip.length = 16) :
    (':' ∈ ipStringChars ip ↔ to4 ip = none) := by
  have hne0 : ¬ ip.length = 0 := by rcases hwf with h | h <;> omega
  have hne : ¬ (ip.length ≠ 4 ∧ ip.length ≠ 16) := by
    rcases hwf with h | h <;> simp [h]
  unfold ipStringChars
  rw [if_neg hne0, if_neg hne]
  cases hto : to4 ip with
  | some p4 =>
    simp only [hto]
    constructor
    · intro hmem
      exact absurd hmem (colon_not_mem_joinDot _ (by
        intro l hl
        rcases List.mem_map.mp hl with ⟨n, _, rfl⟩
        exact colon_not_mem_natDec n))
    · intro hc
      exact absurd hc (by simp)
  | none =>
    simp only [hto]
    have h16 : ip.length = 16 := to4_none_length16 hwf hto
    constructor
    · intro _; trivial
    · intro _
      exact colon_mem_v6Chars _ (by rw [groups16_length, h16])

/-! ### Characterizing `_isLocalIP` -/

theorem buildRanges_eq : buildRanges = Except.ok (ip4Ranges, ip6Ranges) := by decide

/-- On well-formed addresses, `_isLocalIP` denies exactly when some block
of the family-appropriate range list contains the address. -/
theorem isLocalIP_eq (ip : List Nat) (hwf : ip.length = 4 ∨ ip.length = 16) :
    _isLocalIP ip =
      if ((if (to4 ip).isSome then ip4Ranges else ip6Ranges).any
          (fun block => ipnetContains block ip)) then
        some (LocalErr.denied ip)
      else none := by
  have hcol := colon_mem_ipString_iff ip hwf
  unfold _isLocalIP
  rw [buildRanges_eq]
  cases hto : to4 ip with
  | some p4 =>
    have hnc : ¬ (':' ∈ ipStringChars ip) := by
      rw [hcol, hto]; simp
    simp [hto, hnc]
  | none =>
    have hc : ':' ∈ ipStringChars ip := hcol.mpr hto
    simp [hto, hc]

/-- `_isLocalIP` never reports a CIDR parse error: the range build always
succeeds, so the only outcomes are nil and the denial of the input. -/
theorem isLocalIP_none_or_denied (ip : List Nat) :
    _isLocalIP ip = none ∨ _isLocalIP ip = some (LocalErr.denied ip) := by
  unfold _isLocalIP
  rw [buildRanges_eq]
  simp only
  split <;> split <;> first
    | exact Or.inr rfl
    | exact Or.inl rfl

theorem contains_network4_isSome {b : IPNet} {ip : List Nat}
    (hwf : ip.length = 4 ∨ ip.length = 16) (hb : b.network.length = 4)
    (hc : ipnetContains b ip = true) : (to4 ip).isSome := by
  cases hto : to4 ip with
  | some p => simp
  | none =>
    exfalso
    unfold ipnetContains at hc
    rw [hto] at hc
    simp only [Option.getD_none, Bool.and_eq_true, decide_eq_true_eq] at hc
    have h16 : ip.length = 16 := to4_none_length16 hwf hto
    omega

theorem contains_network16_to4_none {b : IPNet} {ip : List Nat}
    (hb : b.network.length = 16) (hc : ipnetContains b ip = true) :
    to4 ip = none := by
  cases hto : to4 ip with
  | none => rfl
  | some p =>
    exfalso
    unfold ipnetContains at hc
    rw [hto] at hc
    simp only [Option.getD_some, Bool.and_eq_true, decide_eq_true_eq] at hc
    have hp : p.length = 4 := to4_some_length hto
    omega

/-! ### Step lemmas for the `_checker` candidate loop -/

theorem checkerLoop_cons_denied (env : NetEnv) (nw port target : List Char)
    (ip : List Nat) (rest : List (List Nat)) (e : LocalErr)
    (h : _isLocalIP ip = some e) :
    checkerLoop env nw port target (ip :: rest) =
      ([], some (Except.error (CheckErr.localErr e))) := by
  unfold checkerLoop
  rw [h]

/-- Unfolding the two `target`-rewriting `if` statements of the loop body:
for a well-formed candidate the dial target is always the freshly pinned
literal, never the stale `target` value. -/
theorem target_rewrite (ip : List Nat) (hwf : ip.length = 4 ∨ ip.length = 16)
    (port target : List Char) :
    (if (to16 ip).isSome && (to4 ip).isNone then
        '[' :: (ipStringChars ip ++ ']' :: ':' :: port)
      else if (to4 ip).isSome then ipStringChars ip ++ ':' :: port else target) =
      fmtTarget ip port := by
  cases hto : to4 ip with
  | some p4 => simp [hto, fmtTarget]
  | none =>
    have h16 : ip.length = 16 := to4_none_length16 hwf hto
    have h6 : (to16 ip).isSome := by simp [to16, h16]
    simp [hto, h6, fmtTarget]

theorem checkerLoop_cons_ok (env : NetEnv) (nw port target : List Char)
    (ip : List Nat) (rest : List (List Nat)) (con : Conn)
    (hwf : ip.length = 4 ∨ ip.length = 16)
    (h : _isLocalIP ip = none)
    (hd : env.dialContext nw (fmtTarget ip port) = Except.ok con) :
    checkerLoop env nw port target (ip :: rest) =
      ([⟨nw, fmtTarget ip port⟩], some (Except.ok con)) := by
  unfold checkerLoop
  rw [h]
  simp only [target_rewrite ip hwf port target, hd]

theorem checkerLoop_cons_err (env : NetEnv) (nw port target : List Char)
    (ip : List Nat) (rest : List (List Nat)) (msg : List Char)
    (hwf : ip.length = 4 ∨ ip.length = 16)
    (h : _isLocalIP ip = none)
    (hd : env.dialContext nw (fmtTarget ip port) = Except.error msg) :
    checkerLoop env nw port target (ip :: rest) =
      (⟨nw, fmtTarget ip port⟩ ::
          (checkerLoop env nw port (fmtTarget ip port) rest).1,
        (checkerLoop env nw port (fmtTarget ip port) rest).2) := by
  conv_lhs => unfold checkerLoop
  rw [h]
  simp only [target_rewrite ip hwf port target, hd]

/-! ### Invariants of the candidate loop -/

/-- Every entry of the loop's dial trace is the pinned target of some
resolved candidate that `_isLocalIP` allowed. -/
theorem checkerLoop_attempts (env : NetEnv) (nw port : List Char) :
    ∀ (ips : List (List Nat)) (target : List Char),
      (∀ ip ∈ ips, ip.length = 4 ∨ ip.length = 16) →
      ∀ a ∈ (checkerLoop env nw port target ips).1,
        a.network = nw ∧
          ∃ ip ∈ ips, _isLocalIP ip = none ∧ a.target = fmtTarget ip port := by
  intro ips
  induction ips with
  | nil => intro target _ a ha; simp [checkerLoop] at ha
  | cons ip rest ih =>
    intro target hwf a ha
    rcases isLocalIP_none_or_denied ip with hloc | hloc
    · cases hd : env.dialContext nw (fmtTarget ip port) with
      | ok con =>
        rw [checkerLoop_cons_ok env nw port target ip rest con
          (hwf ip (by simp)) hloc hd] at ha
        simp only [List.mem_singleton] at ha
        subst ha
        exact ⟨rfl, ip, by simp, hloc, rfl⟩
      | error m =>
        rw [checkerLoop_cons_err env nw port target ip rest m
          (hwf ip (by simp)) hloc hd] at ha
        rcases List.mem_cons.mp ha with rfl | ha2
        · exact ⟨rfl, ip, by simp, hloc, rfl⟩
        · obtain ⟨hn, ip2, hip2, hl2, ht2⟩ :=
            ih (fmtTarget ip port)
              (fun i hi => hwf i (List.mem_cons_of_mem _ hi)) a ha2
          exact ⟨hn, ip2, List.mem_cons_of_mem _ hip2, hl2, ht2⟩
    · rw [checkerLoop_cons_denied env nw port target ip rest _ hloc] at ha
      simp at ha

/-- When every candidate is well formed, allowed, and fails to connect,
the loop attempts every candidate in order and falls through. -/
theorem checkerLoop_all_fail (env : NetEnv) (nw port : List Char) :
    ∀ (ips : List (List Nat)) (target : List Char),
      (∀ ip ∈ ips, (ip.length = 4 ∨ ip.length = 16) ∧ _isLocalIP ip = none ∧
        exceptOk (env.dialContext nw (fmtTarget ip port)) = false) →
      checkerLoop env nw port target ips =
        (ips.map (fun ip => ⟨nw, fmtTarget ip port⟩), none) := by
  intro ips
  induction ips with
  | nil => intro target _; rfl
  | cons ip rest ih =>
    intro target h
    obtain ⟨hwf, hloc, hfail⟩ := h ip (by simp)
    cases hd : env.dialContext nw (fmtTarget ip port) with
    | ok con => rw [hd] at hfail; simp [exceptOk] at hfail
    | error m =>
      rw [checkerLoop_cons_err env nw port target ip rest m hwf hloc hd,
        ih (fmtTarget ip port) (fun i hi => h i (List.mem_cons_of_mem _ hi))]
      simp

/-- When every candidate is well formed and allowed and some candidate's
dial succeeds, the loop returns a connection that the base dialer opened
for one of the candidates' pinned targets. -/
theorem checkerLoop_success (env : NetEnv) (nw port : List Char) :
    ∀ (ips : List (List Nat)) (target : List Char),
      (∀ ip ∈ ips, (ip.length = 4 ∨ ip.length = 16) ∧ _isLocalIP ip = none) →
      (∃ ip ∈ ips, exceptOk (env.dialContext nw (fmtTarget ip port)) = true) →
      ∃ con ip, ip ∈ ips ∧
        env.dialContext nw (fmtTarget ip port) = Except.ok con ∧
        (checkerLoop env nw port target ips).2 = some (Except.ok con) := by
  intro ips
  induction ips with
  | nil => intro target _ h; simp at h
  | cons ip rest ih =>
    intro target hall hex
    obtain ⟨hwf, hloc⟩ := hall ip (by simp)
    cases hd : env.dialContext nw (fmtTarget ip port) with
    | ok con =>
      exact ⟨con, ip, by simp, hd, by
        rw [checkerLoop_cons_ok env nw port target ip rest con hwf hloc hd]⟩
    | error m =>
      have hex2 : ∃ i ∈ rest,
          exceptOk (env.dialContext nw (fmtTarget i port)) = true := by
        rcases hex with ⟨i, hi, hoki⟩
        rcases List.mem_cons.mp hi with rfl | hi2
        · rw [hd] at hoki; simp [exceptOk] at hoki
        · exact ⟨i, hi2, hoki⟩
      obtain ⟨con, i, hi, hdi, hres⟩ :=
        ih (fmtTarget ip port)
          (fun j hj => hall j (List.mem_cons_of_mem _ hj)) hex2
      refine ⟨con, i, List.mem_cons_of_mem _ hi, hdi, ?_⟩
      rw [checkerLoop_cons_err env nw port target ip rest m hwf hloc hd]
      exact hres

/-- When the candidates before a denied one are all well formed, allowed
and fail to connect, the loop attempts exactly those earlier candidates
and then aborts with the denial error; the denied candidate and everything
after it are never dialed. -/
theorem checkerLoop_denied_prefix (env : NetEnv) (nw port : List Char) :
    ∀ (pre : List (List Nat)) (target : List Char) (d : List Nat)
      (post : List (List Nat)) (e : LocalErr),
      (∀ ip ∈ pre, (ip.length = 4 ∨ ip.length = 16) ∧ _isLocalIP ip = none ∧
        exceptOk (env.dialContext nw (fmtTarget ip port)) = false) →
      _isLocalIP d = some e →
      checkerLoop env nw port target (pre ++ d :: post) =
        (pre.map (fun ip => ⟨nw, fmtTarget ip port⟩),
          some (Except.error (CheckErr.localErr e))) := by
  intro pre
  induction pre with
  | nil =>
    intro target d post e _ hd
    simpa using checkerLoop_cons_denied env nw port target d post e hd
  | cons ip rest ih =>
    intro target d post e h hd
    obtain ⟨hwf, hloc, hfail⟩ := h ip (by simp)
    cases hdc : env.dialContext nw (fmtTarget ip port) with
    | ok con => rw [hdc] at hfail; simp [exceptOk] at hfail
    | error m =>
      have hsplit : (ip :: rest) ++ d :: post = ip :: (rest ++ d :: post) := rfl
      rw [hsplit, checkerLoop_cons_err env nw port target ip
          (rest ++ d :: post) m hwf hloc hdc,
        ih (fmtTarget ip port) d post e
          (fun j hj => h j (List.mem_cons_of_mem _ hj)) hd]
      simp

/-! ### Lifting loop facts through `checker` -/

theorem checker_trace (env : NetEnv) (nw addr host port : List Char)
    (ips : List (List Nat))
    (hs : env.split addr = Except.ok (host, port))
    (hl : env.lookupIP host = Except.ok ips) :
    (checker env nw addr).1 = (checkerLoop env nw port [] ips).1 := by
  unfold checker
  simp only [hs, hl]
  rcases hres : checkerLoop env nw port [] ips with ⟨tr, r⟩
  cases r with
  | none =>
    simp only
    split <;> rfl
  | some r => rfl

theorem checker_of_loop_some (env : NetEnv) (nw addr host port : List Char)
    (ips : List (List Nat)) (tr : List DialAttempt) (r : Except CheckErr Conn)
    (hs : env.split addr = Except.ok (host, port))
    (hl : env.lookupIP host = Except.ok ips)
    (hloop : checkerLoop env nw port [] ips = (tr, some r)) :
    checker env nw addr = (tr, r) := by
  unfold checker
  simp only [hs, hl, hloop]

theorem colon_mem_fmtTarget (ip : List Nat) (port : List Char) :
    ':' ∈ fmtTarget ip port := by
  unfold fmtTarget
  split <;> simp

theorem ip4Ranges_network_length : ∀ b ∈ ip4Ranges, b.network.length = 4 := by
  decide

theorem ip6Ranges_network_length : ∀ b ∈ ip6Ranges, b.network.length = 16 := by
  decide

/-- Membership in any block of either family table forces a denial. -/
theorem denied_of_block_contains {b : IPNet} {ip : List Nat}
    (hwf : ip.length = 4 ∨ ip.length = 16)
    (hb : b ∈ ip4Ranges ∨ b ∈ ip6Ranges)
    (hc : ipnetContains b ip = true) :
    _isLocalIP ip = some (LocalErr.denied ip) := by
  rw [isLocalIP_eq ip hwf]
  rcases hb with hb | hb
  · have h4 : (to4 ip).isSome :=
      contains_network4_isSome hwf (ip4Ranges_network_length b hb) hc
    have hany : ip4Ranges.any (fun block => ipnetContains block ip) = true :=
      List.any_eq_true.mpr ⟨b, hb, hc⟩
    simp [h4, hany]
  · have h4 : to4 ip = none :=
      contains_network16_to4_none (ip6Ranges_network_length b hb) hc
    have hany : ip6Ranges.any (fun block => ipnetContains block ip) = true :=
      List.any_eq_true.mpr ⟨b, hb, hc⟩
    simp [h4, hany]

/-! ### Claim theorems -/

/-- C4: for every (well-formed) IP address, classification consults only
the ranges of that address's family — `ip4Ranges` for an IPv4 input,
`ip6Ranges` for an IPv6 input — and returns the denial error precisely
when some range of that family subset contains the IP, and nil (allowed)
precisely when none contains it. -/
theorem classifier_family_lookup (ip : List Nat)
    (hwf : ip.length = 4 ∨ ip.length = 16) :
    (_isLocalIP ip = some (LocalErr.denied ip) ↔
      ((if (to4 ip).isSome then ip4Ranges else ip6Ranges).any
        (fun block => ipnetContains block ip)) = true) ∧
    (_isLocalIP ip = none ↔
      ((if (to4 ip).isSome then ip4Ranges else ip6Ranges).any
        (fun block => ipnetContains block ip)) = false) := by
  rw [isLocalIP_eq ip hwf]
  cases hany : (if (to4 ip).isSome then ip4Ranges else ip6Ranges).any
      (fun block => ipnetContains block ip) <;>
    simp [hany]

theorem classifier_family_lookup_witness :
    (([8, 8, 8, 8] : List Nat).length = 4 ∨
      ([8, 8, 8, 8] : List Nat).length = 16) ∧
    ((_isLocalIP [8, 8, 8, 8] = some (LocalErr.denied [8, 8, 8, 8]) ↔
      ((if (to4 [8, 8, 8, 8]).isSome then ip4Ranges else ip6Ranges).any
        (fun block => ipnetContains block [8, 8, 8, 8])) = true) ∧
    (_isLocalIP [8, 8, 8, 8] = none ↔
      ((if (to4 [8, 8, 8, 8]).isSome then ip4Ranges else ip6Ranges).any
        (fun block => ipnetContains block [8, 8, 8, 8])) = false)) :=
  ⟨by decide, classifier_family_lookup [8, 8, 8, 8] (by decide)⟩

/-- The ranges the specification requires the denied set to contain at
minimum. -/
def requiredRanges : List String :=
  ["127.0.0.0/8", "10.0.0.0/8", "172.16.0.0/12", "192.168.0.0/16",
   "169.254.0.0/16", "::1/128", "fe80::/10", "fc00::/7"]

/-- C5: the denied range set contains (at least) IPv4 loopback, the three
RFC1918 ranges, IPv4 link-local, and the IPv6 loopback, link-local and
unique-local analogues; consequently every well-formed IP contained in any
of those blocks is classified as denied. -/
theorem required_ranges_denied :
    (∀ s ∈ requiredRanges, ∃ b, parseCIDR s = Except.ok b ∧
      (b ∈ ip4Ranges ∨ b ∈ ip6Ranges)) ∧
    (∀ s b ip, s ∈ requiredRanges → parseCIDR s = Except.ok b →
      ipnetContains b ip = true → (ip.length = 4 ∨ ip.length = 16) →
      _isLocalIP ip = some (LocalErr.denied ip)) := by
  have hmemB : ∀ s ∈ requiredRanges,
      (match parseCIDR s with
        | Except.ok b => decide (b ∈ ip4Ranges ∨ b ∈ ip6Ranges)
        | Except.error _ => false) = true := by decide
  have hmem : ∀ s ∈ requiredRanges, ∃ b, parseCIDR s = Except.ok b ∧
      (b ∈ ip4Ranges ∨ b ∈ ip6Ranges) := by
    intro s hs
    have h := hmemB s hs
    cases hp : parseCIDR s with
    | error e => rw [hp] at h; simp at h
    | ok b =>
      rw [hp] at h
      exact ⟨b, rfl, of_decide_eq_true h⟩
  refine ⟨hmem, ?_⟩
  intro s b ip hs hp hc hwf
  obtain ⟨b2, hp2, hmem2⟩ := hmem s hs
  rw [hp] at hp2
  injection hp2 with hb2
  subst hb2
  exact denied_of_block_contains hwf hmem2 hc

theorem required_ranges_denied_witness :
    ("127.0.0.0/8" ∈ requiredRanges) ∧
    parseCIDR ("127.0.0.0/8") = Except.ok ⟨[127, 0, 0, 0], [255, 0, 0, 0]⟩ ∧
    ipnetContains ⟨[127, 0, 0, 0], [255, 0, 0, 0]⟩ [127, 0, 0, 1] = true ∧
    (([127, 0, 0, 1] : List Nat).length = 4 ∨
      ([127, 0, 0, 1] : List Nat).length = 16) ∧
    _isLocalIP [127, 0, 0, 1] = some (LocalErr.denied [127, 0, 0, 1]) :=
  ⟨by decide, by decide, by decide, by decide,
    required_ranges_denied.2 ("127.0.0.0/8") ⟨[127, 0, 0, 0], [255, 0, 0, 0]⟩
      [127, 0, 0, 1] (by decide) (by decide) (by decide) (by decide)⟩

/-- C6: every denial error of classification names the classified IP, and
its message contains both the phrase "denied as local" and the denied
IP's literal string representation. -/
theorem denial_message_contract (ip j : List Nat)
    (h : _isLocalIP ip = some (LocalErr.denied j)) :
    j = ip ∧
    (∃ pre post, localErrMsg (LocalErr.denied j) =
      pre ++ "denied as local".data ++ post) ∧
    (∃ pre post, localErrMsg (LocalErr.denied j) =
      pre ++ ipStringChars j ++ post) := by
  have hj : j = ip := by
    rcases isLocalIP_none_or_denied ip with h0 | h0 <;> rw [h0] at h
    · exact absurd h (by simp)
    · injection h with h1
      injection h1 with h2
      exact h2.symm
  have hsplit : (" is denied as local").data =
      (" is ").data ++ ("denied as local").data := by decide
  refine ⟨hj,
    ⟨"ip address ".data ++ ipStringChars j ++ " is ".data, [], ?_⟩,
    ⟨"ip address ".data, " is denied as local".data, ?_⟩⟩
  · simp [localErrMsg, deniedMsg, hsplit]
  · simp [localErrMsg, deniedMsg]

theorem denial_message_contract_witness :
    _isLocalIP [10, 1, 2, 3] = some (LocalErr.denied [10, 1, 2, 3]) ∧
    ([10, 1, 2, 3] = ([10, 1, 2, 3] : List Nat) ∧
    (∃ pre post, localErrMsg (LocalErr.denied [10, 1, 2, 3]) =
      pre ++ "denied as local".data ++ post) ∧
    (∃ pre post, localErrMsg (LocalErr.denied [10, 1, 2, 3]) =
      pre ++ ipStringChars [10, 1, 2, 3] ++ post)) :=
  ⟨by decide, denial_message_contract [10, 1, 2, 3] [10, 1, 2, 3] (by decide)⟩

/-- C10: every compiled-in CIDR literal parses successfully, so the parse
error branch of `_isLocalIP` is unreachable: for every input the result is
either nil (allowed) or the denial of that input, never a parse error. -/
theorem classifier_no_parse_error :
    (∀ s ∈ localIP4 ++ localIP6, exceptOk (parseCIDR s) = true) ∧
    (∀ ip : List Nat, _isLocalIP ip = none ∨
      _isLocalIP ip = some (LocalErr.denied ip)) :=
  ⟨by decide, isLocalIP_none_or_denied⟩

theorem classifier_no_parse_error_witness :
    ("10.0.0.0/8" ∈ localIP4 ++ localIP6) ∧
    exceptOk (parseCIDR ("10.0.0.0/8")) = true ∧
    (_isLocalIP [93, 184, 216, 34] = none ∨
      _isLocalIP [93, 184, 216, 34] = some (LocalErr.denied [93, 184, 216, 34])) :=
  ⟨by decide, classifier_no_parse_error.1 ("10.0.0.0/8") (by decide),
    classifier_no_parse_error.2 [93, 184, 216, 34]⟩

/-- C2: whatever target `_checker` hands to the base dial primitive is the
pinned literal of some resolved candidate whose classification returned
nil — no candidate is dialed unless its classification allowed it. -/
theorem dial_only_allowed_candidates (env : NetEnv)
    (nw addr host port : List Char) (ips : List (List Nat))
    (hs : env.split addr = Except.ok (host, port))
    (hl : env.lookupIP host = Except.ok ips)
    (hwf : ∀ ip ∈ ips, ip.length = 4 ∨ ip.length = 16) :
    ∀ a ∈ (checker env nw addr).1,
      ∃ ip ∈ ips, _isLocalIP ip = none ∧ a.target = fmtTarget ip port := by
  intro a ha
  rw [checker_trace env nw addr host port ips hs hl] at ha
  exact (checkerLoop_attempts env nw port ips [] hwf a ha).2

/-- Witness environment: one public candidate whose dial succeeds. -/
def envW2 : NetEnv :=
  { split := fun a =>
      if a = "example.com:80".data then
        Except.ok ("example.com".data, "80".data)
      else Except.error ("missing port in address".data)
    lookupIP := fun h =>
      if h = "example.com".data then Except.ok [[93, 184, 216, 34]]
      else Except.error ("no such host".data)
    dialContext := fun nw t =>
      if t = "93.184.216.34:80".data then Except.ok ⟨nw, t⟩
      else Except.error ("connection refused".data) }

theorem dial_only_allowed_candidates_witness :
    (envW2.split ("example.com:80".data) =
      Except.ok ("example.com".data, "80".data)) ∧
    (envW2.lookupIP ("example.com".data) = Except.ok [[93, 184, 216, 34]]) ∧
    (∀ a ∈ (checker envW2 ("tcp".data) ("example.com:80".data)).1,
      ∃ ip ∈ [[93, 184, 216, 34]], _isLocalIP ip = none ∧
        a.target = fmtTarget ip ("80".data)) :=
  ⟨by decide, by decide,
    dial_only_allowed_candidates envW2 ("tcp".data) ("example.com:80".data)
      ("example.com".data) ("80".data) [[93, 184, 216, 34]]
      (by decide) (by decide) (by decide)⟩

/-- C3: once resolution has occurred, every address string handed to the
base dial primitive is a literal resolved candidate joined with the
original port — dotted decimal `ip:port` for an IPv4 candidate and
`[ip]:port` for an IPv6 candidate — and (hostnames contain no colon while
every pinned target does) never the original hostname string. -/
theorem dial_target_pinned_literal (env : NetEnv)
    (nw addr host port : List Char) (ips : List (List Nat))
    (hs : env.split addr = Except.ok (host, port))
    (hl : env.lookupIP host = Except.ok ips)
    (hwf : ∀ ip ∈ ips, ip.length = 4 ∨ ip.length = 16)
    (hhost : ':' ∉ host) :
    ∀ a ∈ (checker env nw addr).1,
      (∃ ip ∈ ips,
        (if (to4 ip).isSome then a.target = ipStringChars ip ++ ':' :: port
          else a.target = '[' :: (ipStringChars ip ++ ']' :: ':' :: port))) ∧
      a.target ≠ host := by
  intro a ha
  rw [checker_trace env nw addr host port ips hs hl] at ha
  obtain ⟨_, ip, hip, _, hta⟩ :=
    checkerLoop_attempts env nw port ips [] hwf a ha
  have hcol : ':' ∈ a.target := by
    rw [hta]; exact colon_mem_fmtTarget ip port
  refine ⟨⟨ip, hip, ?_⟩, fun hEq => hhost (hEq ▸ hcol)⟩
  rw [hta]
  unfold fmtTarget
  split
  next h4 => simp
  next h4 => simp

theorem dial_target_pinned_literal_witness :
    (envW2.split ("example.com:80".data) =
      Except.ok ("example.com".data, "80".data)) ∧
    (':' ∉ ("example.com".data)) ∧
    (∀ a ∈ (checker envW2 ("tcp".data) ("example.com:80".data)).1,
      (∃ ip ∈ [[93, 184, 216, 34]],
        (if (to4 ip).isSome then
          a.target = ipStringChars ip ++ ':' :: ("80".data)
        else a.target = '[' :: (ipStringChars ip ++ ']' :: ':' :: ("80".data)))) ∧
      a.target ≠ "example.com".data) :=
  ⟨by decide, by decide,
    dial_target_pinned_literal envW2 ("tcp".data) ("example.com:80".data)
      ("example.com".data) ("80".data) [[93, 184, 216, 34]]
      (by decide) (by decide) (by decide) (by decide)⟩

/-- C7: when resolution fails the checker returns the resolver's error,
and when resolution yields zero candidates it returns the
`failed to resolve host from` error; in both cases the dial trace is
empty — no connection attempt is made. -/
theorem resolution_failure_no_dial (env : NetEnv)
    (nw addr host port e : List Char)
    (hs : env.split addr = Except.ok (host, port)) :
    (env.lookupIP host = Except.error e →
      checker env nw addr = ([], Except.error (CheckErr.resolveErr e))) ∧
    (env.lookupIP host = Except.ok [] →
      checker env nw addr = ([], Except.error (CheckErr.noHost addr))) := by
  constructor
  · intro hl
    unfold checker
    simp only [hs, hl]
  · intro hl
    unfold checker
    simp only [hs, hl]
    rfl

/-- Witness environment: a host that does not resolve, and a host that
resolves to an empty candidate list. -/
def envW7 : NetEnv :=
  { split := fun a =>
      if a = "bad.example:80".data then
        Except.ok ("bad.example".data, "80".data)
      else if a = "empty.example:80".data then
        Except.ok ("empty.example".data, "80".data)
      else Except.error ("missing port in address".data)
    lookupIP := fun h =>
      if h = "empty.example".data then Except.ok []
      else Except.error ("no such host".data)
    dialContext := fun nw t => Except.ok ⟨nw, t⟩ }

theorem resolution_failure_no_dial_witness :
    (envW7.split ("bad.example:80".data) =
      Except.ok ("bad.example".data, "80".data)) ∧
    (envW7.lookupIP ("bad.example".data) = Except.error ("no such host".data)) ∧
    checker envW7 ("tcp".data) ("bad.example:80".data) =
      ([], Except.error (CheckErr.resolveErr ("no such host".data))) ∧
    (envW7.split ("empty.example:80".data) =
      Except.ok ("empty.example".data, "80".data)) ∧
    (envW7.lookupIP ("empty.example".data) = Except.ok []) ∧
    checker envW7 ("tcp".data) ("empty.example:80".data) =
      ([], Except.error (CheckErr.noHost ("empty.example:80".data))) :=
  ⟨by decide, by decide,
    (resolution_failure_no_dial envW7 ("tcp".data) ("bad.example:80".data)
      ("bad.example".data) ("80".data) ("no such host".data) (by decide)).1
      (by decide),
    by decide, by decide,
    (resolution_failure_no_dial envW7 ("tcp".data) ("empty.example:80".data)
      ("empty.example".data) ("80".data) ("no such host".data) (by decide)).2
      (by decide)⟩

/-- C8: when every candidate is well formed and allowed, (a) if every
attempted connection fails the call fails with the
`failed to connect to` error naming the original address (and every
candidate was attempted, in order); (b) if some candidate's dial succeeds,
the checker returns a connection the base dialer opened for one of the
candidates' pinned targets. -/
theorem connect_exhaustion_or_success (env : NetEnv)
    (nw addr host port : List Char) (ips : List (List Nat))
    (hs : env.split addr = Except.ok (host, port))
    (hl : env.lookupIP host = Except.ok ips)
    (hne : ips ≠ [])
    (hok : ∀ ip ∈ ips, (ip.length = 4 ∨ ip.length = 16) ∧ _isLocalIP ip = none) :
    ((∀ ip ∈ ips, exceptOk (env.dialContext nw (fmtTarget ip port)) = false) →
      checker env nw addr =
        (ips.map (fun ip => ⟨nw, fmtTarget ip port⟩),
          Except.error (CheckErr.connectFailed addr)) ∧
      (∃ pre post, checkErrMsg (CheckErr.connectFailed addr) =
        pre ++ addr ++ post)) ∧
    ((∃ ip ∈ ips, exceptOk (env.dialContext nw (fmtTarget ip port)) = true) →
      ∃ con ip, ip ∈ ips ∧
        env.dialContext nw (fmtTarget ip port) = Except.ok con ∧
        (checker env nw addr).2 = Except.ok con) := by
  constructor
  · intro hfail
    have hloop := checkerLoop_all_fail env nw port ips []
      (fun ip hip => ⟨(hok ip hip).1, (hok ip hip).2, hfail ip hip⟩)
    constructor
    · unfold checker
      simp only [hs, hl, hloop]
      have : ¬ ips.length < 1 := by
        cases ips with
        | nil => exact absurd rfl hne
        | cons i rest => simp
      simp [this]
    · exact ⟨"failed to connect to ".data, [], by simp [checkErrMsg]⟩
  · intro hex
    obtain ⟨con, ip, hip, hd, hres⟩ :=
      checkerLoop_success env nw port ips [] hok hex
    rcases hloop : checkerLoop env nw port [] ips with ⟨tr, r⟩
    rw [hloop] at hres
    simp only at hres
    subst hres
    refine ⟨con, ip, hip, hd, ?_⟩
    rw [checker_of_loop_some env nw addr host port ips tr (Except.ok con)
      hs hl hloop]

/-- Witness environment for connect failure: two public candidates, the
base dialer refuses everything. -/
def envW8 : NetEnv :=
  { split := fun a =>
      if a = "example.com:80".data then
        Except.ok ("example.com".data, "80".data)
      else Except.error ("missing port in address".data)
    lookupIP := fun h =>
      if h = "example.com".data then
        Except.ok [[93, 184, 216, 34], [8, 8, 8, 8]]
      else Except.error ("no such host".data)
    dialContext := fun _ _ => Except.error ("connection refused".data) }

theorem connect_exhaustion_or_success_witness :
    (envW8.split ("example.com:80".data) =
      Except.ok ("example.com".data, "80".data)) ∧
    (envW8.lookupIP ("example.com".data) =
      Except.ok [[93, 184, 216, 34], [8, 8, 8, 8]]) ∧
    ([[93, 184, 216, 34], [8, 8, 8, 8]] ≠ ([] : List (List Nat))) ∧
    (checker envW8 ("tcp".data) ("example.com:80".data) =
      ([[93, 184, 216, 34], [8, 8, 8, 8]].map
          (fun ip => ⟨"tcp".data, fmtTarget ip ("80".data)⟩),
        Except.error (CheckErr.connectFailed ("example.com:80".data))) ∧
      (∃ pre post, checkErrMsg (CheckErr.connectFailed ("example.com:80".data)) =
        pre ++ "example.com:80".data ++ post)) :=
  ⟨by decide, by decide, by decide,
    (connect_exhaustion_or_success envW8 ("tcp".data) ("example.com:80".data)
      ("example.com".data) ("80".data) [[93, 184, 216, 34], [8, 8, 8, 8]]
      (by decide) (by decide) (by decide) (by decide)).1 (by decide)⟩

/-- Counterexample environment for the fail-closed claim: the host
resolves to a public candidate followed by the denied loopback address,
and the base dialer accepts the public candidate. -/
def envC1a : NetEnv :=
  { split := fun a =>
      if a = "h.example:80".data then Except.ok ("h.example".data, "80".data)
      else Except.error ("missing port in address".data)
    lookupIP := fun h =>
      if h = "h.example".data then Except.ok [[8, 8, 8, 8], [127, 0, 0, 1]]
      else Except.error ("no such host".data)
    dialContext := fun nw t =>
      if t = "8.8.8.8:80".data then Except.ok ⟨nw, t⟩
      else Except.error ("connection refused".data) }

/-- C1 counterexample: the resolved candidate list contains the denied
address 127.0.0.1, yet the call connects to the earlier public candidate
8.8.8.8 — it succeeds instead of failing with a denial, and a connection
attempt was made.  Classification of every candidate does not happen
before the first connection attempt. -/
theorem fail_closed_counterexample :
    _isLocalIP [127, 0, 0, 1] = some (LocalErr.denied [127, 0, 0, 1]) ∧
    envC1a.lookupIP ("h.example".data) =
      Except.ok [[8, 8, 8, 8], [127, 0, 0, 1]] ∧
    checker envC1a ("tcp".data) ("h.example:80".data) =
      ([⟨"tcp".data, "8.8.8.8:80".data⟩],
        Except.ok ⟨"tcp".data, "8.8.8.8:80".data⟩) ∧
    ¬ ((∃ e, (checker envC1a ("tcp".data) ("h.example:80".data)).2 =
          Except.error (CheckErr.localErr e)) ∧
        (checker envC1a ("tcp".data) ("h.example:80".data)).1 = []) := by
  have hck : checker envC1a ("tcp".data) ("h.example:80".data) =
      ([⟨"tcp".data, "8.8.8.8:80".data⟩],
        Except.ok ⟨"tcp".data, "8.8.8.8:80".data⟩) := by decide
  refine ⟨by decide, by decide, hck, ?_⟩
  rintro ⟨⟨e, he⟩, -⟩
  rw [hck] at he
  exact absurd he (by simp)

/-- C1 (amended): candidates are processed in resolution order and each is
classified immediately before its own dial.  When the candidate list is an
allowed prefix (whose dials all fail) followed by a denied candidate, the
call aborts with the DeniedError naming that candidate; the earlier
allowed candidates were each dialed, and the denied candidate and all
later candidates are never dialed. -/
theorem fail_closed_amended (env : NetEnv) (nw addr host port : List Char)
    (pre : List (List Nat)) (d : List Nat) (post : List (List Nat))
    (hs : env.split addr = Except.ok (host, port))
    (hl : env.lookupIP host = Except.ok (pre ++ d :: post))
    (hpre : ∀ ip ∈ pre, (ip.length = 4 ∨ ip.length = 16) ∧
      _isLocalIP ip = none ∧
      exceptOk (env.dialContext nw (fmtTarget ip port)) = false)
    (hd : _isLocalIP d = some (LocalErr.denied d)) :
    checker env nw addr =
      (pre.map (fun ip => ⟨nw, fmtTarget ip port⟩),
        Except.error (CheckErr.localErr (LocalErr.denied d))) := by
  have hloop := checkerLoop_denied_prefix env nw port pre [] d post
    (LocalErr.denied d) hpre hd
  exact checker_of_loop_some env nw addr host port (pre ++ d :: post)
    (pre.map (fun ip => ⟨nw, fmtTarget ip port⟩))
    (Except.error (CheckErr.localErr (LocalErr.denied d))) hs hl hloop

/-- Witness environment for the amended claim: as in the counterexample
but the base dialer refuses the public candidate, so the loop reaches the
denied one. -/
def envC1b : NetEnv :=
  { split := fun a =>
      if a = "h.example:80".data then Except.ok ("h.example".data, "80".data)
      else Except.error ("missing port in address".data)
    lookupIP := fun h =>
      if h = "h.example".data then Except.ok [[8, 8, 8, 8], [127, 0, 0, 1]]
      else Except.error ("no such host".data)
    dialContext := fun _ _ => Except.error ("connection refused".data) }

theorem fail_closed_amended_witness :
    (envC1b.split ("h.example:80".data) =
      Except.ok ("h.example".data, "80".data)) ∧
    _isLocalIP [127, 0, 0, 1] = some (LocalErr.denied [127, 0, 0, 1]) ∧
    checker envC1b ("tcp".data) ("h.example:80".data) =
      ([[8, 8, 8, 8]].map (fun ip => ⟨"tcp".data, fmtTarget ip ("80".data)⟩),
        Except.error (CheckErr.localErr (LocalErr.denied [127, 0, 0, 1]))) :=
  ⟨by decide, by decide,
    fail_closed_amended envC1b ("tcp".data) ("h.example:80".data)
      ("h.example".data) ("80".data) [[8, 8, 8, 8]] [127, 0, 0, 1] []
      (by decide) (by decide) (by decide) (by decide)⟩

/-- C9: the factory's legacy `Dial` hook is the raw dialer itself — for
every network and address it behaves exactly as the base dial oracle, with
no classification; in particular a base-dialer connection to the denied
loopback address 127.0.0.1 is returned as is, even though `_isLocalIP`
denies that address. -/
theorem legacy_dial_hook_unguarded (env : NetEnv) :
    (∀ nw addr, (Transport env).dial nw addr = env.dialContext nw addr) ∧
    _isLocalIP [127, 0, 0, 1] = some (LocalErr.denied [127, 0, 0, 1]) ∧
    (∀ con, env.dialContext ("tcp".data) ("127.0.0.1:80".data) =
        Except.ok con →
      (Transport env).dial ("tcp".data) ("127.0.0.1:80".data) =
        Except.ok con) :=
  ⟨fun _ _ => rfl, by decide, fun _ h => h⟩

/-- Witness environment: the raw dialer connects to anything. -/
def envC9 : NetEnv :=
  { split := fun _ => Except.error ("missing port in address".data)
    lookupIP := fun _ => Except.error ("no such host".data)
    dialContext := fun nw t => Except.ok ⟨nw, t⟩ }

theorem legacy_dial_hook_unguarded_witness :
    envC9.dialContext ("tcp".data) ("127.0.0.1:80".data) =
      Except.ok ⟨"tcp".data, "127.0.0.1:80".data⟩ ∧
    (Transport envC9).dial ("tcp".data) ("127.0.0.1:80".data) =
      Except.ok ⟨"tcp".data, "127.0.0.1:80".data⟩ :=
  ⟨rfl, (legacy_dial_hook_unguarded envC9).2.2
    ⟨"tcp".data, "127.0.0.1:80".data⟩ rfl⟩
